import Mathlib

/-!
Shallow embedding of the `requirements` Django app (`django_doors` repository):
the `Term` model form validation (`requirements/forms.py`), the `Term.save`
normalisation and the `Unit` model (`requirements/models.py`).

Form data is modelled the way Django handles it: a submitted value is a Python
value (`PyVal`), the form's `cleaned_data` is a dictionary from field names to
Python values, and the overridden `TermForm.clean` is a function from
`cleaned_data` (plus the optional `current_user` stored at `__init__`) to an
updated dictionary together with the list of field errors added via
`add_error`.  Dictionary subscripting (`cleaned_data['d_type']`) is partial and
raises `KeyError` when the key is absent; this is modelled with `Except`, the
error value carrying the missing key.
-/

/-- A Python value as it occurs in this form's data: `None`, a string, an
integer, or a `User` object (identified by its primary key). -/
inductive PyVal where
  | none : PyVal
  | str : String → PyVal
  | int : Int → PyVal
  | user : Nat → PyVal
deriving DecidableEq, Repr

/-- Python truthiness restricted to the values above: `None`, `''` and `0` are
falsy, every `User` object is truthy. -/
def PyVal.truthy : PyVal → Bool
  | .none => false
  | .str s => s ≠ ""
  | .int n => n ≠ 0
  | .user _ => true

/-- Python `==` restricted to the values above: equal only within one type,
`None == None` is `True`, and comparisons across these types are `False`
(mirroring `int.__eq__` / `str.__eq__` / default object identity). -/
def PyVal.pyEq : PyVal → PyVal → Bool
  | .none, .none => true
  | .str s, .str t => s = t
  | .int m, .int n => m = n
  | .user u, .user v => u = v
  | _, _ => false

/-- Python `str()` on the values above (`User.__str__` returns the username;
users are identified here by primary key, rendered through it). -/
def PyVal.pyStr : PyVal → String
  | .none => "None"
  | .str s => s
  | .int n => toString n
  | .user u => "user" ++ toString u

/-- A Python dictionary with string keys, as an association list (first match
wins, mirroring unique keys of a `dict`). -/
abbrev PyDict := List (String × PyVal)

/-- `d[k]`: Python dictionary subscripting; raises `KeyError` (modelled as
`Except.error` carrying the key) when the key is absent. -/
def PyDict.getItem (d : PyDict) (k : String) : Except String PyVal :=
  match List.lookup k d with
  | some v => .ok v
  | none => .error k

/-- `d[k] = v`: Python dictionary assignment (replaces an existing binding). -/
def PyDict.setItem (d : PyDict) (k : String) (v : PyVal) : PyDict :=
  match d with
  | [] => [(k, v)]
  | (k', v') :: rest =>
    if k' = k then (k, v) :: rest else (k', v') :: PyDict.setItem rest k v

/-- `del d[k]`: removes the binding for `k` (a no-op when absent, which is all
`add_error` needs since it checks membership first). -/
def PyDict.delItem (d : PyDict) (k : String) : PyDict :=
  match d with
  | [] => []
  | (k', v') :: rest =>
    if k' = k then rest else (k', v') :: PyDict.delItem rest k

namespace Term

/-! Data type choices of `requirements.models.Term`. -/

def NONE : Int := 0
def BOOLEAN : Int := 1
def ENUM : Int := 2
def FLOAT : Int := 3
def INTEGER : Int := 4
def STRING : Int := 5

/-! Term type choices of `requirements.models.Term`. -/

def CONSTANT : Int := 0
def DEFINITION : Int := 1
def INPUT : Int := 2
def OUTPUT : Int := 3
def VARIABLE : Int := 4

/-- The valid values of the `d_type` choice field (`D_TYPE_CHOICES`). -/
def D_TYPE_VALUES : List Int := [NONE, BOOLEAN, ENUM, FLOAT, INTEGER, STRING]

/-- The valid values of the `t_type` choice field (`T_TYPE_CHOICES`). -/
def T_TYPE_VALUES : List Int := [CONSTANT, DEFINITION, INPUT, OUTPUT, VARIABLE]

end Term

namespace TermForm

/-- The fixed message used by every `add_error` call in `TermForm.clean`. -/
def fillMsg : String := "This field should be filled."

/-- A field error as recorded by `form.add_error(field, message)`: the field
name and the message. -/
abbrev FieldError := String × String

/-- The validation state threaded through `clean`: the form's `cleaned_data`
and the accumulated field errors. -/
abbrev CleanState := PyDict × List FieldError

/-- `self.add_error(field, message)`: records the error against the field and,
as Django's `BaseForm.add_error` does, deletes the field from `cleaned_data`. -/
def addError (st : CleanState) (field msg : String) : CleanState :=
  (PyDict.delItem st.1 field, st.2 ++ [(field, msg)])

/-- The `d_type == BOOLEAN` branch of `TermForm.clean` (forms.py lines 47-52):
both condition fields are looked up by subscripting (so a missing key raises)
and an error is added for each falsy one. -/
def booleanChecks (st : CleanState) : Except String CleanState :=
  match PyDict.getItem st.1 "boolean_false_cond" with
  | .error k => .error k
  | .ok bf =>
    let st1 := if bf.truthy then st else addError st "boolean_false_cond" fillMsg
    match PyDict.getItem st1.1 "boolean_true_cond" with
    | .error k => .error k
    | .ok bt =>
      .ok (if bt.truthy then st1 else addError st1 "boolean_true_cond" fillMsg)

/-- The `t_type == CONSTANT` branch of `TermForm.clean` (forms.py lines 54-56):
`value` is looked up by subscripting and an error is added when it is falsy. -/
def constantCheck (st : CleanState) : Except String CleanState :=
  match PyDict.getItem st.1 "value" with
  | .error k => .error k
  | .ok v => .ok (if v.truthy then st else addError st "value" fillMsg)

/-- `if self.current_user:` (forms.py lines 43-45): when a current user was
supplied at `__init__` (a `User` object is always truthy, `None` is falsy),
`added_user` and `modified_user` are assigned into `cleaned_data`. -/
def stampUsers (currentUser : Option Nat) (cd : PyDict) : PyDict :=
  match currentUser with
  | some u => (cd.setItem "added_user" (.user u)).setItem "modified_user" (.user u)
  | none => cd

/-- `TermForm.clean` (forms.py lines 32-58): stamps the current user, then runs
the boolean-condition and constant-value checks in source order.  Returns the
final `cleaned_data` and the list of errors added, or the missing key when a
dictionary subscript raises `KeyError`. -/
def clean (currentUser : Option Nat) (cleanedData : PyDict) :
    Except String CleanState :=
  let cd := stampUsers currentUser cleanedData
  match PyDict.getItem cd "d_type" with
  | .error k => .error k
  | .ok dt =>
    match (if dt.pyEq (.int Term.BOOLEAN) then booleanChecks (cd, []) else .ok (cd, [])) with
    | .error k => .error k
    | .ok st =>
      match PyDict.getItem st.1 "t_type" with
      | .error k => .error k
      | .ok tt =>
        if tt.pyEq (.int Term.CONSTANT) then constantCheck st else .ok st

/-! ### Field-level cleaning

`TermForm` is a `ModelForm` with `Meta.fields = ['name', 'd_type', 't_type',
'description', 'value', 'units', 'max_value', 'min_value',
'boolean_false_cond', 'boolean_true_cond']`.  Django's `BaseForm.full_clean`
first cleans each declared field (`_clean_fields`): a field that validates
contributes its cleaned value to `cleaned_data`, a field that fails records a
field error and is left out of `cleaned_data`.  Keys of the posted data that
are not declared fields (`added_user`, `modified_user`, ...) are ignored.
`clean()` is then called on the result even when field errors exist.  The
framework behaviour below is modelled only as far as these claims need it. -/

/-- Python's `str.strip()` as `CharField.clean` applies it (`strip=True`):
whitespace removed from both ends. -/
def pyStrip (s : String) : String :=
  String.mk (((s.data.dropWhile Char.isWhitespace).reverse.dropWhile
    Char.isWhitespace).reverse)

/-- Django's fixed message for a missing required field. -/
def requiredMsg : String := "This field is required."

/-- Django's message for a choice field value outside the declared choices
(`%(value)s` interpolated as in `django.forms.ChoiceField`). -/
def choiceMsg (v : PyVal) : String :=
  "Select a valid choice. " ++ v.pyStr ++ " is not one of the available choices."

/-- An optional `CharField` of this form (`blank=True, null=True` on the model,
so the form field has `required=False` and `empty_value=None`): a submitted
value is converted with `str()` and stripped; an absent key, `None`, or a
value that strips to the empty string cleans to `None`. -/
def cleanOptionalChar (post : PyDict) (field : String) : PyVal :=
  match List.lookup field post with
  | Option.none => PyVal.none
  | some v =>
    if v = PyVal.none ∨ v = PyVal.str "" then PyVal.none
    else
      let s := pyStrip v.pyStr
      if s = "" then PyVal.none else PyVal.str s

/-- The required `name` `CharField` (`null=False`, so `empty_value` is `''`):
an absent, `None` or empty submitted value fails the required check; otherwise
the `str()`-converted, stripped value is kept. -/
def cleanNameField (post : PyDict) : Except FieldError PyVal :=
  match List.lookup "name" post with
  | Option.none => .error ("name", requiredMsg)
  | some v =>
    if v = PyVal.none ∨ v = PyVal.str "" then .error ("name", requiredMsg)
    else
      let s := pyStrip v.pyStr
      if s = "" then .error ("name", requiredMsg) else .ok (PyVal.str s)

/-- A required choice field (`d_type` / `t_type`, both `blank=False` model
fields with choices): an absent or `None` value fails the required check, an
integer outside the declared choices (or a non-integer) fails the valid-choice
check, and a declared choice cleans to itself. -/
def cleanChoiceField (post : PyDict) (field : String) (choices : List Int) :
    Except FieldError PyVal :=
  match List.lookup field post with
  | Option.none => .error (field, requiredMsg)
  | some PyVal.none => .error (field, requiredMsg)
  | some (PyVal.int n) =>
    if n ∈ choices then .ok (PyVal.int n) else .error (field, choiceMsg (PyVal.int n))
  | some v => .error (field, choiceMsg v)

/-- Folds one field's cleaning result into `(cleaned_data, errors)`: a cleaned
value is bound in `cleaned_data`, an error is recorded and the field omitted. -/
def recordField (st : CleanState) (field : String) :
    Except FieldError PyVal → CleanState
  | .ok v => (st.1 ++ [(field, v)], st.2)
  | .error e => (st.1, st.2 ++ [e])

/-- The optional `CharField`s of the form, in `Meta.fields` order.  `units` is
an optional foreign key; an absent or empty submission likewise cleans to
`None`, and no claim exercises a non-empty one, so it is modelled with the
same empty handling. -/
def optionalFields : List String :=
  ["description", "value", "units", "max_value", "min_value",
   "boolean_false_cond", "boolean_true_cond"]

/-- Django's `_clean_fields` for this form: cleans `name`, `d_type`, `t_type`
and the optional fields in declaration order, producing `cleaned_data` and the
field-level errors. -/
def cleanFields (post : PyDict) : CleanState :=
  let st0 : CleanState := ([], [])
  let st1 := recordField st0 "name" (cleanNameField post)
  let st2 := recordField st1 "d_type" (cleanChoiceField post "d_type" Term.D_TYPE_VALUES)
  let st3 := recordField st2 "t_type" (cleanChoiceField post "t_type" Term.T_TYPE_VALUES)
  optionalFields.foldl (fun st f => (st.1 ++ [(f, cleanOptionalChar post f)], st.2)) st3

/-- `BaseForm.full_clean` for this form: field-level cleaning, then the
overridden `clean()` (which Django calls even when field errors exist — its
`KeyError`s are not caught and propagate).  Field errors precede the errors
`clean` adds. -/
def fullClean (currentUser : Option Nat) (post : PyDict) :
    Except String CleanState :=
  match clean currentUser (cleanFields post).1 with
  | .error k => .error k
  | .ok st' => .ok (st'.1, (cleanFields post).2 ++ st'.2)

/-- The accepted-record store: the list of accepted cleaned data sets, in
insertion order. -/
abbrev TermStore := List PyDict

/-- Submitting the form against a store: `is_valid()` then save.  A valid form
appends its cleaned data to the store; an invalid one returns the field errors
and leaves the store untouched; a `KeyError` escaping `clean` propagates. -/
def submit (store : TermStore) (currentUser : Option Nat) (post : PyDict) :
    Except String (TermStore × List FieldError) :=
  match fullClean currentUser post with
  | .error k => .error k
  | .ok (cd, errs) =>
    if errs = [] then .ok (store ++ [cd], []) else .ok (store, errs)

/-- The declared form fields (`Meta.fields`), the only fields a field-scoped
error can name. -/
def termFormFields : List String :=
  ["name", "d_type", "t_type", "description", "value", "units", "max_value",
   "min_value", "boolean_false_cond", "boolean_true_cond"]

/-- The errors the `d_type == BOOLEAN` branch of `clean` adds, as a function
of the two looked-up condition values. -/
def boolErrs (bf bt : PyVal) : List FieldError :=
  (if bf.truthy then [] else [("boolean_false_cond", fillMsg)]) ++
  (if bt.truthy then [] else [("boolean_true_cond", fillMsg)])

/-- The errors the `t_type == CONSTANT` branch of `clean` adds, as a function
of the looked-up value. -/
def constErrs (v : PyVal) : List FieldError :=
  if v.truthy then [] else [("value", fillMsg)]

end TermForm

/-! ### The `Term` model (`requirements/models.py`)

A persisted `Term` row, restricted to the fields the claims touch.  Nullable
`CharField`s are `Option String` (`none` is SQL `NULL`/Python `None`). -/

structure TermRec where
  name : String
  d_type : Int
  t_type : Int
  boolean_false_cond : Option String
  boolean_true_cond : Option String
  value : Option String
  added_user : Nat
  modified_user : Nat
deriving DecidableEq, Repr

/-- Python truthiness of a nullable string field: `None` and `''` are falsy. -/
def optStrTruthy : Option String → Bool
  | Option.none => false
  | some s => s ≠ ""

/-- Python's `str.upper()`, which on the basic latin letters these fields hold
maps each character to its upper-case form (embedded with `Char.toUpper`,
which upper-cases exactly `a`-`z`). -/
def pyUpper (s : String) : String := String.mk (s.data.map Char.toUpper)

/-- An ASCII lower-case letter (`a`-`z`), the characters `str.upper()` /
`Char.toUpper` fold away. -/
def isLowerLetter (c : Char) : Bool := decide (97 ≤ Char.toNat c ∧ Char.toNat c ≤ 122)

/-- A string with no ASCII lower-case letter. -/
def noLowerStr (s : String) : Bool := s.data.all (fun c => !(isLowerLetter c))

/-- `Term.save` (models.py lines 135-149): each condition field is upper-cased
when it is filled (truthy) and left untouched otherwise; the superclass `save`
then persists the instance, which `termCreate` models. -/
def termSave (t : TermRec) : TermRec :=
  let t1 :=
    if optStrTruthy t.boolean_false_cond then
      { t with boolean_false_cond := t.boolean_false_cond.map pyUpper }
    else t
  if optStrTruthy t1.boolean_true_cond then
    { t1 with boolean_true_cond := t1.boolean_true_cond.map pyUpper }
  else t1

/-- `Term.objects.create(...)`: builds the instance and calls `save`, which
appends the (normalised) row to the table. -/
def termCreate (table : List TermRec) (t : TermRec) : List TermRec :=
  table ++ [termSave t]

/-! ### The `Unit` model (`requirements/models.py` lines 52-71) -/

structure UnitRec where
  symbol : String
  name : String
  name_plural : String
  description : Option String
  is_active : Bool
deriving DecidableEq, Repr

/-- `Unit.__str__` (models.py lines 70-71): returns the symbol unchanged.
(The source class is named `Unit`; that name is taken by the Lean prelude, so
the embedding calls it `UnitRec`.) -/
def UnitRec.str (u : UnitRec) : String := u.symbol

/-- The uniqueness constraints declared on the `Unit` table: `symbol`, `name`
and `name_plural` each carry `unique=True`. -/
def unitConflict (u v : UnitRec) : Prop :=
  u.symbol = v.symbol ∨ u.name = v.name ∨ u.name_plural = v.name_plural

instance (u v : UnitRec) : Decidable (unitConflict u v) := by
  unfold unitConflict; infer_instance

/-- A well-formed `Unit` table: no two rows violate a uniqueness constraint.
This is the invariant the database enforces. -/
def unitTableWf (table : List UnitRec) : Prop :=
  table.Pairwise (fun u v => ¬ unitConflict u v)

/-- `Unit.objects.create(...)`: the insert the database performs — rejected
(`IntegrityError`, carrying a constraint message) when the new row shares a
unique column value with an existing row, otherwise appended. -/
def unitCreate (table : List UnitRec) (u : UnitRec) : Except String (List UnitRec) :=
  if table.any (fun v => decide (unitConflict v u)) then
    .error "UNIQUE constraint failed"
  else
    .ok (table ++ [u])

/-! ### Concrete inputs used to instantiate the theorems -/

/-- A `cleaned_data` dictionary for a Boolean term whose false-condition is
`None` (as in `test_d_type_boolean_boolean_false_cond_blank_raise_error`). -/
def cdBooleanBlankFalse : PyDict :=
  [("name", PyVal.str "my var"), ("d_type", PyVal.int Term.BOOLEAN),
   ("t_type", PyVal.int Term.DEFINITION), ("boolean_false_cond", PyVal.none),
   ("boolean_true_cond", PyVal.str "TRUE"), ("value", PyVal.none)]

/-- A `cleaned_data` dictionary for a Constant term with an empty value. -/
def cdConstantBlankValue : PyDict :=
  [("name", PyVal.str "my const"), ("d_type", PyVal.int Term.NONE),
   ("t_type", PyVal.int Term.CONSTANT), ("boolean_false_cond", PyVal.none),
   ("boolean_true_cond", PyVal.none), ("value", PyVal.none)]

/-- A posted form with `added_user` and `modified_user` supplied in the post
data (they are not declared form fields). -/
def postSuppliedUsers : PyDict :=
  [("name", PyVal.str "my var"), ("d_type", PyVal.int Term.NONE),
   ("t_type", PyVal.int Term.DEFINITION), ("added_user", PyVal.user 1),
   ("modified_user", PyVal.user 1)]

/-- The minimal valid post of `test_is_valid_true_without_user_data`: no
`added_user` / `modified_user` keys at all. -/
def postNoUsers : PyDict :=
  [("name", PyVal.str "my var"), ("d_type", PyVal.int Term.NONE),
   ("t_type", PyVal.int Term.DEFINITION)]

/-- A post that omits the required `name` field. -/
def postNoName : PyDict :=
  [("d_type", PyVal.int Term.NONE), ("t_type", PyVal.int Term.DEFINITION)]

/-- A post whose `d_type` is not one of the declared choices. -/
def postBadDType : PyDict :=
  [("name", PyVal.str "my var"), ("d_type", PyVal.int 99),
   ("t_type", PyVal.int Term.DEFINITION)]

/-- The clean result on `cdBooleanBlankFalse`: the false-condition error is
recorded and the field deleted from `cleaned_data`. -/
def stBooleanBlankFalse : TermForm.CleanState :=
  ([("name", PyVal.str "my var"), ("d_type", PyVal.int Term.BOOLEAN),
    ("t_type", PyVal.int Term.DEFINITION), ("boolean_true_cond", PyVal.str "TRUE"),
    ("value", PyVal.none)],
   [("boolean_false_cond", TermForm.fillMsg)])

/-- The clean result on `cdConstantBlankValue`: the value error is recorded
and the field deleted from `cleaned_data`. -/
def stConstantBlankValue : TermForm.CleanState :=
  ([("name", PyVal.str "my const"), ("d_type", PyVal.int Term.NONE),
    ("t_type", PyVal.int Term.CONSTANT), ("boolean_false_cond", PyVal.none),
    ("boolean_true_cond", PyVal.none)],
   [("value", TermForm.fillMsg)])

/-- The cleaned data produced by a valid submission of `postNoUsers` with
acting user 1: every declared field cleaned, then the users stamped. -/
def stNoUsers : TermForm.CleanState :=
  ([("name", PyVal.str "my var"), ("d_type", PyVal.int Term.NONE),
    ("t_type", PyVal.int Term.DEFINITION), ("description", PyVal.none),
    ("value", PyVal.none), ("units", PyVal.none), ("max_value", PyVal.none),
    ("min_value", PyVal.none), ("boolean_false_cond", PyVal.none),
    ("boolean_true_cond", PyVal.none), ("added_user", PyVal.user 1),
    ("modified_user", PyVal.user 1)], [])

/-- The cleaned data produced by submitting `postSuppliedUsers` with acting
user 2: the supplied users are ignored and the acting user is stamped. -/
def cdSuppliedUsers2 : PyDict :=
  [("name", PyVal.str "my var"), ("d_type", PyVal.int Term.NONE),
   ("t_type", PyVal.int Term.DEFINITION), ("description", PyVal.none),
   ("value", PyVal.none), ("units", PyVal.none), ("max_value", PyVal.none),
   ("min_value", PyVal.none), ("boolean_false_cond", PyVal.none),
   ("boolean_true_cond", PyVal.none), ("added_user", PyVal.user 2),
   ("modified_user", PyVal.user 2)]

/-- The `Term` row of the model tests: condition strings `"my true"` and
`"my false"` (`test_entry_save_makes_boolean_true_condition_upper`). -/
def termMyVar : TermRec :=
  { name := "my var", d_type := Term.BOOLEAN, t_type := Term.DEFINITION,
    boolean_false_cond := some "my false", boolean_true_cond := some "my true",
    value := Option.none, added_user := 1, modified_user := 1 }

/-- A `Term` row with an empty false-condition and a mixed-case
true-condition. -/
def termMixed : TermRec :=
  { name := "my var 2", d_type := Term.BOOLEAN, t_type := Term.DEFINITION,
    boolean_false_cond := some "", boolean_true_cond := some "a b",
    value := Option.none, added_user := 1, modified_user := 1 }

/-- The `Unit` row of `test_model_saves_and_returns_special_characters`:
symbol `µA`. -/
def microAmp : UnitRec :=
  { symbol := "µA", name := "micro-amp", name_plural := "micro-amps",
    description := some "electric current", is_active := true }

/-- A second `Unit` row, sharing no unique column with `microAmp`. -/
def milliVolt : UnitRec :=
  { symbol := "mV", name := "milli-volt", name_plural := "milli-volts",
    description := Option.none, is_active := true }

/-- A `Unit` row sharing its `name` with `microAmp`. -/
def microAmpDup : UnitRec :=
  { symbol := "uA", name := "micro-amp", name_plural := "micro-amperes",
    description := Option.none, is_active := true }

/-! ## Lemmas about the dictionary operations -/

theorem lookup_setItem_self (d : PyDict) (k : String) (v : PyVal) :
    List.lookup k (PyDict.setItem d k v) = some v := by
  induction d with
  | nil => simp [PyDict.setItem, List.lookup]
  | cons p rest ih =>
    obtain ⟨k', v'⟩ := p
    by_cases h : k' = k
    · subst h
      simp [PyDict.setItem, List.lookup]
    · simp [PyDict.setItem, h, List.lookup, ih, beq_false_of_ne (Ne.symm h)]

theorem lookup_setItem_ne (d : PyDict) (k k' : String) (v : PyVal)
    (h : k ≠ k') : List.lookup k (PyDict.setItem d k' v) = List.lookup k d := by
  induction d with
  | nil => simp [PyDict.setItem, List.lookup, beq_false_of_ne h]
  | cons p rest ih =>
    obtain ⟨k0, v0⟩ := p
    by_cases h0 : k0 = k'
    · subst h0
      simp [PyDict.setItem, List.lookup, beq_false_of_ne h]
    · simp only [PyDict.setItem, h0, if_false, List.lookup]
      by_cases hk : k = k0
      · subst hk
        simp
      · simp [beq_false_of_ne hk, ih]

theorem lookup_delItem_ne (d : PyDict) (k k' : String)
    (h : k ≠ k') : List.lookup k (PyDict.delItem d k') = List.lookup k d := by
  induction d with
  | nil => simp [PyDict.delItem]
  | cons p rest ih =>
    obtain ⟨k0, v0⟩ := p
    by_cases h0 : k0 = k'
    · subst h0
      simp [PyDict.delItem, List.lookup, beq_false_of_ne h]
    · simp only [PyDict.delItem, h0, if_false, List.lookup]
      by_cases hk : k = k0
      · subst hk
        simp
      · simp [beq_false_of_ne hk, ih]

namespace TermForm

theorem lookup_stampUsers_other (cu : Option Nat) (cd : PyDict) (k : String)
    (h1 : k ≠ "added_user") (h2 : k ≠ "modified_user") :
    List.lookup k (stampUsers cu cd) = List.lookup k cd := by
  cases cu with
  | none => rfl
  | some u => simp [stampUsers, lookup_setItem_ne _ _ _ _ h2, lookup_setItem_ne _ _ _ _ h1]

theorem lookup_stampUsers_added (cd : PyDict) (u : Nat) :
    List.lookup "added_user" (stampUsers (some u) cd) = some (PyVal.user u) := by
  simp only [stampUsers]
  rw [lookup_setItem_ne _ _ _ _ (by decide), lookup_setItem_self]

theorem lookup_stampUsers_modified (cd : PyDict) (u : Nat) :
    List.lookup "modified_user" (stampUsers (some u) cd) = some (PyVal.user u) := by
  simp only [stampUsers]
  rw [lookup_setItem_self]

/-- Inversion of the `BOOLEAN` branch: a non-raising run means both condition
fields were present, the errors added are exactly `boolErrs` of their values,
and every other key of `cleaned_data` is untouched. -/
theorem booleanChecks_ok (st st' : CleanState) (h : booleanChecks st = .ok st') :
    ∃ bf bt,
      List.lookup "boolean_false_cond" st.1 = some bf ∧
      List.lookup "boolean_true_cond" st.1 = some bt ∧
      st'.2 = st.2 ++ boolErrs bf bt ∧
      ∀ k, k ≠ "boolean_false_cond" → k ≠ "boolean_true_cond" →
        List.lookup k st'.1 = List.lookup k st.1 := by
  unfold booleanChecks at h
  cases hbf : List.lookup "boolean_false_cond" st.1 with
  | none => simp [PyDict.getItem, hbf] at h
  | some bf =>
    simp only [PyDict.getItem, hbf] at h
    by_cases htf : bf.truthy
    · simp only [htf, if_true] at h
      cases hbt : List.lookup "boolean_true_cond" st.1 with
      | none => simp [hbt] at h
      | some bt =>
        simp only [hbt, Except.ok.injEq] at h
        subst h
        refine ⟨bf, bt, rfl, rfl, ?_, ?_⟩
        · by_cases htt : bt.truthy <;> simp [htt, addError, boolErrs, htf]
        · intro k hk1 hk2
          by_cases htt : bt.truthy
          · simp only [htt, if_true]
          · simp only [Bool.not_eq_true] at htt
            simp only [htt, Bool.false_eq_true, if_false, addError]
            exact lookup_delItem_ne _ _ _ hk2
    · simp only [Bool.not_eq_true] at htf
      simp only [htf, Bool.false_eq_true, if_false, addError] at h
      cases hbt : List.lookup "boolean_true_cond" (PyDict.delItem st.1 "boolean_false_cond") with
      | none => simp [hbt] at h
      | some bt =>
        simp only [hbt, Except.ok.injEq] at h
        subst h
        have hbt' : List.lookup "boolean_true_cond" st.1 = some bt := by
          rw [← lookup_delItem_ne st.1 "boolean_true_cond" "boolean_false_cond" (by decide)]
          exact hbt
        refine ⟨bf, bt, rfl, hbt', ?_, ?_⟩
        · by_cases htt : bt.truthy <;> simp [htt, addError, boolErrs, htf]
        · intro k hk1 hk2
          by_cases htt : bt.truthy
          · simp only [htt, if_true, addError]
            exact lookup_delItem_ne _ _ _ hk1
          · simp only [Bool.not_eq_true] at htt
            simp only [htt, Bool.false_eq_true, if_false, addError]
            rw [lookup_delItem_ne _ _ _ hk2, lookup_delItem_ne _ _ _ hk1]

end TermForm

namespace TermForm

/-- Inversion of the `CONSTANT` branch: a non-raising run means `value` was
present, the errors added are exactly `constErrs` of its value, and every
other key of `cleaned_data` is untouched. -/
theorem constantCheck_ok (st st' : CleanState) (h : constantCheck st = .ok st') :
    ∃ v,
      List.lookup "value" st.1 = some v ∧
      st'.2 = st.2 ++ constErrs v ∧
      ∀ k, k ≠ "value" → List.lookup k st'.1 = List.lookup k st.1 := by
  unfold constantCheck at h
  cases hv : List.lookup "value" st.1 with
  | none => simp [PyDict.getItem, hv] at h
  | some v =>
    simp only [PyDict.getItem, hv, Except.ok.injEq] at h
    subst h
    refine ⟨v, rfl, ?_, ?_⟩
    · by_cases htv : v.truthy <;> simp [htv, addError, constErrs]
    · intro k hk
      by_cases htv : v.truthy
      · simp only [htv, if_true]
      · simp only [Bool.not_eq_true] at htv
        simp only [htv, Bool.false_eq_true, if_false, addError]
        exact lookup_delItem_ne _ _ _ hk

/-- Inversion of `TermForm.clean`: a non-raising run determines the looked-up
`d_type` and `t_type`, splits the added errors into the `BOOLEAN`-branch and
`CONSTANT`-branch parts, and leaves every key other than the three
error-deleted fields as `stampUsers` left it. -/
theorem clean_ok (cu : Option Nat) (cd : PyDict) (st' : CleanState)
    (h : clean cu cd = .ok st') :
    (∀ k, k ≠ "boolean_false_cond" → k ≠ "boolean_true_cond" → k ≠ "value" →
      List.lookup k st'.1 = List.lookup k (stampUsers cu cd)) ∧
    ∃ dt tt eb ec,
      List.lookup "d_type" (stampUsers cu cd) = some dt ∧
      List.lookup "t_type" (stampUsers cu cd) = some tt ∧
      st'.2 = eb ++ ec ∧
      ((dt.pyEq (.int Term.BOOLEAN) = false ∧ eb = []) ∨
       (dt.pyEq (.int Term.BOOLEAN) = true ∧ ∃ bf bt,
         List.lookup "boolean_false_cond" (stampUsers cu cd) = some bf ∧
         List.lookup "boolean_true_cond" (stampUsers cu cd) = some bt ∧
         eb = boolErrs bf bt)) ∧
      ((tt.pyEq (.int Term.CONSTANT) = false ∧ ec = []) ∨
       (tt.pyEq (.int Term.CONSTANT) = true ∧ ∃ v,
         List.lookup "value" (stampUsers cu cd) = some v ∧
         ec = constErrs v)) := by
  unfold clean at h
  cases hdt : List.lookup "d_type" (stampUsers cu cd) with
  | none => simp [PyDict.getItem, hdt] at h
  | some dt =>
    simp only [PyDict.getItem, hdt] at h
    by_cases hb : dt.pyEq (.int Term.BOOLEAN)
    · simp only [hb, if_true] at h
      cases hbc : booleanChecks (stampUsers cu cd, []) with
      | error k => rw [hbc] at h; simp at h
      | ok st1 =>
        rw [hbc] at h
        obtain ⟨bf, bt, hbf, hbt, herr1, hpres1⟩ := booleanChecks_ok _ _ hbc
        cases htt : List.lookup "t_type" st1.1 with
        | none => simp [htt] at h
        | some tt =>
          simp only [htt] at h
          have htt' : List.lookup "t_type" (stampUsers cu cd) = some tt := by
            rw [← hpres1 "t_type" (by decide) (by decide)]
            exact htt
          by_cases hc : tt.pyEq (.int Term.CONSTANT)
          · simp only [hc, if_true] at h
            obtain ⟨v, hv, herr2, hpres2⟩ := constantCheck_ok _ _ h
            have hv' : List.lookup "value" (stampUsers cu cd) = some v := by
              rw [← hpres1 "value" (by decide) (by decide)]
              exact hv
            refine ⟨?_, dt, tt, boolErrs bf bt, constErrs v, rfl, htt', ?_, ?_, ?_⟩
            · intro k h1 h2 h3
              rw [hpres2 k h3, hpres1 k h1 h2]
            · rw [herr2, herr1]
              simp
            · exact Or.inr ⟨hb, bf, bt, hbf, hbt, rfl⟩
            · exact Or.inr ⟨hc, v, hv', rfl⟩
          · simp only [Bool.not_eq_true] at hc
            simp only [hc, Bool.false_eq_true, if_false, Except.ok.injEq] at h
            subst h
            refine ⟨?_, dt, tt, boolErrs bf bt, [], rfl, htt', ?_, ?_, ?_⟩
            · intro k h1 h2 h3
              exact hpres1 k h1 h2
            · rw [herr1]
              simp
            · exact Or.inr ⟨hb, bf, bt, hbf, hbt, rfl⟩
            · exact Or.inl ⟨hc, rfl⟩
    · simp only [Bool.not_eq_true] at hb
      simp only [hb, Bool.false_eq_true, if_false] at h
      cases htt : List.lookup "t_type" (stampUsers cu cd) with
      | none => simp [htt] at h
      | some tt =>
        simp only [htt] at h
        by_cases hc : tt.pyEq (.int Term.CONSTANT)
        · simp only [hc, if_true] at h
          obtain ⟨v, hv, herr2, hpres2⟩ := constantCheck_ok _ _ h
          refine ⟨?_, dt, tt, [], constErrs v, rfl, rfl, ?_, ?_, ?_⟩
          · intro k h1 h2 h3
            exact hpres2 k h3
          · rw [herr2]
          · exact Or.inl ⟨hb, rfl⟩
          · exact Or.inr ⟨hc, v, hv, rfl⟩
        · simp only [Bool.not_eq_true] at hc
          simp only [hc, Bool.false_eq_true, if_false, Except.ok.injEq] at h
          subst h
          refine ⟨?_, dt, tt, [], [], rfl, rfl, rfl, Or.inl ⟨hb, rfl⟩, Or.inl ⟨hc, rfl⟩⟩
          intro k h1 h2 h3
          rfl

end TermForm

namespace TermForm

theorem foldl_optional_snd (post : PyDict) (fs : List String) (st : CleanState) :
    (fs.foldl (fun st f => (st.1 ++ [(f, cleanOptionalChar post f)], st.2)) st).2 = st.2 := by
  induction fs generalizing st with
  | nil => rfl
  | cons f rest ih => simp only [List.foldl]; rw [ih]

theorem cleanNameField_error (post : PyDict) (e : FieldError)
    (h : cleanNameField post = .error e) : e = ("name", requiredMsg) := by
  unfold cleanNameField at h
  cases hl : List.lookup "name" post with
  | none =>
    rw [hl] at h
    exact (Except.error.injEq _ _ ▸ h).symm ▸ rfl
  | some v =>
    rw [hl] at h
    by_cases h1 : v = PyVal.none ∨ v = PyVal.str ""
    · simp only [h1, if_true, Except.error.injEq] at h
      exact h.symm
    · simp only [h1, if_false] at h
      by_cases h2 : TermForm.pyStrip v.pyStr = ""
      · simp only [h2, if_true, Except.error.injEq] at h
        exact h.symm
      · simp only [h2, if_false] at h
        cases h

theorem cleanChoiceField_error (post : PyDict) (f : String) (cs : List Int)
    (e : FieldError) (h : cleanChoiceField post f cs = .error e) :
    e.1 = f ∧ (e.2 = requiredMsg ∨ ∃ v, e.2 = choiceMsg v) := by
  unfold cleanChoiceField at h
  cases hl : List.lookup f post with
  | none =>
    rw [hl] at h
    cases h
    exact ⟨rfl, Or.inl rfl⟩
  | some v =>
    rw [hl] at h
    cases v with
    | none =>
      cases h
      exact ⟨rfl, Or.inl rfl⟩
    | int n =>
      by_cases hn : n ∈ cs
      · simp [hn] at h
      · simp only [hn, if_false] at h
        cases h
        exact ⟨rfl, Or.inr ⟨PyVal.int n, rfl⟩⟩
    | str s =>
      cases h
      exact ⟨rfl, Or.inr ⟨PyVal.str s, rfl⟩⟩
    | user u =>
      cases h
      exact ⟨rfl, Or.inr ⟨PyVal.user u, rfl⟩⟩

theorem cleanFields_errors (post : PyDict) :
    ∀ e ∈ (cleanFields post).2, e.1 ∈ (["name", "d_type", "t_type"] : List String) ∧
      (e.2 = requiredMsg ∨ ∃ v, e.2 = choiceMsg v) := by
  intro e he
  unfold cleanFields at he
  rw [foldl_optional_snd] at he
  cases hn : cleanNameField post with
  | ok v1 =>
    cases hd : cleanChoiceField post "d_type" Term.D_TYPE_VALUES with
    | ok v2 =>
      cases ht : cleanChoiceField post "t_type" Term.T_TYPE_VALUES with
      | ok v3 => simp [hn, hd, ht, recordField] at he
      | error e3 =>
        simp only [hn, hd, ht, recordField] at he
        simp at he
        subst he
        obtain ⟨a, b⟩ := cleanChoiceField_error _ _ _ _ ht
        exact ⟨by simp [a], b⟩
    | error e2 =>
      obtain ⟨a, b⟩ := cleanChoiceField_error _ _ _ _ hd
      cases ht : cleanChoiceField post "t_type" Term.T_TYPE_VALUES with
      | ok v3 =>
        simp only [hn, hd, ht, recordField] at he
        simp at he
        subst he
        exact ⟨by simp [a], b⟩
      | error e3 =>
        obtain ⟨a3, b3⟩ := cleanChoiceField_error _ _ _ _ ht
        simp only [hn, hd, ht, recordField] at he
        simp at he
        cases he with
        | inl h1 => subst h1; exact ⟨by simp [a], b⟩
        | inr h1 => subst h1; exact ⟨by simp [a3], b3⟩
  | error e1 =>
    have hne : e1 = ("name", requiredMsg) := cleanNameField_error _ _ hn
    cases hd : cleanChoiceField post "d_type" Term.D_TYPE_VALUES with
    | ok v2 =>
      cases ht : cleanChoiceField post "t_type" Term.T_TYPE_VALUES with
      | ok v3 =>
        simp only [hn, hd, ht, recordField] at he
        simp at he
        subst he
        exact ⟨by simp [hne], Or.inl (by simp [hne])⟩
      | error e3 =>
        obtain ⟨a3, b3⟩ := cleanChoiceField_error _ _ _ _ ht
        simp only [hn, hd, ht, recordField] at he
        simp at he
        cases he with
        | inl h1 => subst h1; exact ⟨by simp [hne], Or.inl (by simp [hne])⟩
        | inr h1 => subst h1; exact ⟨by simp [a3], b3⟩
    | error e2 =>
      obtain ⟨a2, b2⟩ := cleanChoiceField_error _ _ _ _ hd
      cases ht : cleanChoiceField post "t_type" Term.T_TYPE_VALUES with
      | ok v3 =>
        simp only [hn, hd, ht, recordField] at he
        simp at he
        cases he with
        | inl h1 => subst h1; exact ⟨by simp [hne], Or.inl (by simp [hne])⟩
        | inr h1 => subst h1; exact ⟨by simp [a2], b2⟩
      | error e3 =>
        obtain ⟨a3, b3⟩ := cleanChoiceField_error _ _ _ _ ht
        simp only [hn, hd, ht, recordField] at he
        simp at he
        rcases he with h1 | h1 | h1
        · subst h1; exact ⟨by simp [hne], Or.inl (by simp [hne])⟩
        · subst h1; exact ⟨by simp [a2], b2⟩
        · subst h1; exact ⟨by simp [a3], b3⟩

theorem fullClean_ok (cu : Option Nat) (post : PyDict) (cd : PyDict)
    (errs : List FieldError) (h : fullClean cu post = .ok (cd, errs)) :
    ∃ st', clean cu (cleanFields post).1 = .ok st' ∧ cd = st'.1 ∧
      errs = (cleanFields post).2 ++ st'.2 := by
  unfold fullClean at h
  cases hc : clean cu (cleanFields post).1 with
  | error k => rw [hc] at h; cases h
  | ok st' =>
    rw [hc] at h
    cases h
    exact ⟨st', rfl, rfl, rfl⟩

end TermForm

namespace TermForm

theorem mem_constErrs (e : FieldError) (v : PyVal) (h : e ∈ constErrs v) :
    e = ("value", fillMsg) := by
  unfold constErrs at h
  by_cases hv : v.truthy
  · simp [hv] at h
  · simp only [Bool.not_eq_true] at hv
    simp only [hv, Bool.false_eq_true, if_false, List.mem_singleton] at h
    exact h

theorem mem_boolErrs (e : FieldError) (bf bt : PyVal) (h : e ∈ boolErrs bf bt) :
    e = ("boolean_false_cond", fillMsg) ∨ e = ("boolean_true_cond", fillMsg) := by
  unfold boolErrs at h
  rw [List.mem_append] at h
  cases h with
  | inl h =>
    left
    by_cases hf : bf.truthy
    · simp [hf] at h
    · simp only [Bool.not_eq_true] at hf
      simp only [hf, Bool.false_eq_true, if_false, List.mem_singleton] at h
      exact h
  | inr h =>
    right
    by_cases ht : bt.truthy
    · simp [ht] at h
    · simp only [Bool.not_eq_true] at ht
      simp only [ht, Bool.false_eq_true, if_false, List.mem_singleton] at h
      exact h

end TermForm

/-- **C1.** For every `Term` form input with `d_type = Boolean`, validation
rejects each empty condition field: a falsy `boolean_false_cond` attaches
"This field should be filled." to `boolean_false_cond`, a falsy
`boolean_true_cond` attaches it to `boolean_true_cond`, and when both
condition fields are non-empty no such error is raised. -/
theorem term_form_boolean_requires_both_conds (cu : Option Nat) (cd : PyDict)
    (st : TermForm.CleanState) (bf bt : PyVal)
    (hok : TermForm.clean cu cd = .ok st)
    (hd : List.lookup "d_type" cd = some (PyVal.int Term.BOOLEAN))
    (hbf : List.lookup "boolean_false_cond" cd = some bf)
    (hbt : List.lookup "boolean_true_cond" cd = some bt) :
    (bf.truthy = false → ("boolean_false_cond", TermForm.fillMsg) ∈ st.2) ∧
    (bt.truthy = false → ("boolean_true_cond", TermForm.fillMsg) ∈ st.2) ∧
    (bf.truthy = true → bt.truthy = true →
      ("boolean_false_cond", TermForm.fillMsg) ∉ st.2 ∧
      ("boolean_true_cond", TermForm.fillMsg) ∉ st.2) := by
  obtain ⟨-, dt, tt, eb, ec, hdt, htt, herrs, hbool, hconst⟩ :=
    TermForm.clean_ok cu cd st hok
  have hd' : List.lookup "d_type" (TermForm.stampUsers cu cd) =
      some (PyVal.int Term.BOOLEAN) := by
    rw [TermForm.lookup_stampUsers_other cu cd _ (by decide) (by decide)]
    exact hd
  rw [hd'] at hdt
  cases hdt
  rcases hbool with ⟨hfalse, -⟩ | ⟨-, bf', bt', hbf', hbt', heb⟩
  · exact absurd hfalse (by decide)
  have hbf2 : List.lookup "boolean_false_cond" (TermForm.stampUsers cu cd) = some bf := by
    rw [TermForm.lookup_stampUsers_other cu cd _ (by decide) (by decide)]
    exact hbf
  have hbt2 : List.lookup "boolean_true_cond" (TermForm.stampUsers cu cd) = some bt := by
    rw [TermForm.lookup_stampUsers_other cu cd _ (by decide) (by decide)]
    exact hbt
  rw [hbf2] at hbf'
  rw [hbt2] at hbt'
  cases hbf'
  cases hbt'
  subst heb
  have hecv : ∀ e ∈ ec, e = ("value", TermForm.fillMsg) := by
    rcases hconst with ⟨-, hec⟩ | ⟨-, v, -, hec⟩
    · subst hec
      intro e he
      cases he
    · subst hec
      exact fun e he => TermForm.mem_constErrs e v he
  rw [herrs]
  refine ⟨?_, ?_, ?_⟩
  · intro hf
    rw [List.mem_append]
    left
    simp [TermForm.boolErrs, hf]
  · intro ht
    rw [List.mem_append]
    left
    simp [TermForm.boolErrs, ht]
  · intro hf ht
    constructor
    · rw [List.mem_append]
      rintro (h | h)
      · simp [TermForm.boolErrs, hf, ht] at h
      · exact absurd (hecv _ h) (by decide)
    · rw [List.mem_append]
      rintro (h | h)
      · simp [TermForm.boolErrs, hf, ht] at h
      · exact absurd (hecv _ h) (by decide)

/-- **C2.** For every `Term` form input with `t_type = Constant`, validation
rejects if and only if the `value` field is empty, attaching
"This field should be filled." to `value`; a non-empty value raises no such
error. -/
theorem term_form_constant_requires_value_iff (cu : Option Nat) (cd : PyDict)
    (st : TermForm.CleanState) (v : PyVal)
    (hok : TermForm.clean cu cd = .ok st)
    (ht : List.lookup "t_type" cd = some (PyVal.int Term.CONSTANT))
    (hv : List.lookup "value" cd = some v) :
    (("value", TermForm.fillMsg) ∈ st.2 ↔ v.truthy = false) := by
  obtain ⟨-, dt, tt, eb, ec, hdt, htt, herrs, hbool, hconst⟩ :=
    TermForm.clean_ok cu cd st hok
  have ht' : List.lookup "t_type" (TermForm.stampUsers cu cd) =
      some (PyVal.int Term.CONSTANT) := by
    rw [TermForm.lookup_stampUsers_other cu cd _ (by decide) (by decide)]
    exact ht
  rw [ht'] at htt
  cases htt
  rcases hconst with ⟨hfalse, -⟩ | ⟨-, v', hv', hec⟩
  · exact absurd hfalse (by decide)
  have hv2 : List.lookup "value" (TermForm.stampUsers cu cd) = some v := by
    rw [TermForm.lookup_stampUsers_other cu cd _ (by decide) (by decide)]
    exact hv
  rw [hv2] at hv'
  cases hv'
  subst hec
  have hebv : ∀ e ∈ eb, e ≠ ("value", TermForm.fillMsg) := by
    rcases hbool with ⟨-, heb⟩ | ⟨-, bf, bt, -, -, heb⟩
    · subst heb
      intro e he
      cases he
    · subst heb
      intro e he
      rcases TermForm.mem_boolErrs e bf bt he with h | h <;> subst h <;> decide
  rw [herrs, List.mem_append]
  constructor
  · rintro (h | h)
    · exact absurd rfl (hebv _ h)
    · unfold TermForm.constErrs at h
      by_cases hvt : v.truthy
      · simp [hvt] at h
      · simp only [Bool.not_eq_true] at hvt
        exact hvt
  · intro hvt
    right
    simp [TermForm.constErrs, hvt]

/-- Witness for C1: the blank-false-condition input of the form tests. -/
theorem term_form_boolean_requires_both_conds_witness :
    TermForm.clean Option.none cdBooleanBlankFalse = .ok stBooleanBlankFalse ∧
    ("boolean_false_cond", TermForm.fillMsg) ∈ stBooleanBlankFalse.2 :=
  ⟨rfl, (term_form_boolean_requires_both_conds Option.none cdBooleanBlankFalse
      stBooleanBlankFalse PyVal.none (PyVal.str "TRUE") rfl rfl rfl rfl).1 rfl⟩

/-- Witness for C2: a constant term with an empty value. -/
theorem term_form_constant_requires_value_iff_witness :
    TermForm.clean Option.none cdConstantBlankValue = .ok stConstantBlankValue ∧
    ("value", TermForm.fillMsg) ∈ stConstantBlankValue.2 :=
  ⟨rfl, (term_form_constant_requires_value_iff Option.none cdConstantBlankValue
      stConstantBlankValue PyVal.none rfl rfl rfl).mpr rfl⟩

/-- **C5.** A form input that omits `added_user` and `modified_user` but is
constructed with a `current_user` yields, after validation, cleaned data
carrying that acting user in both fields. -/
theorem term_form_stamps_omitted_users (u : Nat) (post : PyDict)
    (cd : PyDict) (errs : List TermForm.FieldError)
    (hadd : List.lookup "added_user" post = Option.none)
    (hmod : List.lookup "modified_user" post = Option.none)
    (hok : TermForm.fullClean (some u) post = .ok (cd, errs)) :
    List.lookup "added_user" cd = some (PyVal.user u) ∧
    List.lookup "modified_user" cd = some (PyVal.user u) := by
  obtain ⟨st', hc, hcd, -⟩ := TermForm.fullClean_ok _ _ _ _ hok
  obtain ⟨hpres, -⟩ := TermForm.clean_ok _ _ _ hc
  subst hcd
  constructor
  · rw [hpres _ (by decide) (by decide) (by decide), TermForm.lookup_stampUsers_added]
  · rw [hpres _ (by decide) (by decide) (by decide), TermForm.lookup_stampUsers_modified]

/-- Witness for C5: the minimal valid post of the form tests, acting user 1. -/
theorem term_form_stamps_omitted_users_witness :
    TermForm.fullClean (some 1) postNoUsers = .ok (stNoUsers.1, stNoUsers.2) ∧
    List.lookup "added_user" stNoUsers.1 = some (PyVal.user 1) ∧
    List.lookup "modified_user" stNoUsers.1 = some (PyVal.user 1) :=
  ⟨rfl,
   (term_form_stamps_omitted_users 1 postNoUsers stNoUsers.1 stNoUsers.2 rfl rfl rfl).1,
   (term_form_stamps_omitted_users 1 postNoUsers stNoUsers.1 stNoUsers.2 rfl rfl rfl).2⟩

/-- **C4 (counterexample).** Supplying `added_user` / `modified_user` in the
post data while an acting user is present does not keep the supplied values:
the form accepts the input and the accepted record carries the acting user
(user 2), not the supplied user 1. -/
theorem term_form_overwrites_supplied_users_counterexample :
    List.lookup "added_user" postSuppliedUsers = some (PyVal.user 1) ∧
    List.lookup "modified_user" postSuppliedUsers = some (PyVal.user 1) ∧
    TermForm.submit [] (some 2) postSuppliedUsers = .ok ([cdSuppliedUsers2], []) ∧
    List.lookup "added_user" cdSuppliedUsers2 = some (PyVal.user 2) ∧
    List.lookup "modified_user" cdSuppliedUsers2 = some (PyVal.user 2) ∧
    PyVal.user 2 ≠ PyVal.user 1 :=
  ⟨rfl, rfl, rfl, rfl, rfl, by decide⟩

/-- **C4 (amended).** When an acting user is supplied, validation stamps
`added_user` and `modified_user` with the acting identity unconditionally:
`added_user` / `modified_user` are not declared form fields, so values
supplied for them are ignored and the accepted cleaned data always carries
the acting user. -/
theorem term_form_acting_user_overrides_supplied (u : Nat) (post : PyDict)
    (cd : PyDict) (errs : List TermForm.FieldError)
    (hok : TermForm.fullClean (some u) post = .ok (cd, errs)) :
    List.lookup "added_user" cd = some (PyVal.user u) ∧
    List.lookup "modified_user" cd = some (PyVal.user u) := by
  obtain ⟨st', hc, hcd, -⟩ := TermForm.fullClean_ok _ _ _ _ hok
  obtain ⟨hpres, -⟩ := TermForm.clean_ok _ _ _ hc
  subst hcd
  constructor
  · rw [hpres _ (by decide) (by decide) (by decide), TermForm.lookup_stampUsers_added]
  · rw [hpres _ (by decide) (by decide) (by decide), TermForm.lookup_stampUsers_modified]

/-- Witness for the amended C4: the post supplying user 1, acting user 2. -/
theorem term_form_acting_user_overrides_supplied_witness :
    TermForm.fullClean (some 2) postSuppliedUsers = .ok (cdSuppliedUsers2, []) ∧
    List.lookup "added_user" cdSuppliedUsers2 = some (PyVal.user 2) :=
  ⟨rfl,
   (term_form_acting_user_overrides_supplied 2 postSuppliedUsers
      cdSuppliedUsers2 [] rfl).1⟩

/-! ## Lemmas about `str.upper()` and `Term.save` -/

theorem toUpper_fix (c : Char) (h : ¬ (Char.toNat c ≥ 97 ∧ Char.toNat c ≤ 122)) :
    Char.toUpper c = c := by
  unfold Char.toUpper
  exact if_neg h

theorem isLowerLetter_toUpper (c : Char) : isLowerLetter (Char.toUpper c) = false := by
  by_cases h : Char.toNat c ≥ 97 ∧ Char.toNat c ≤ 122
  · unfold Char.toUpper
    rw [if_pos h]
    obtain ⟨h1, h2⟩ := h
    generalize hg : Char.toNat c = n at h1 h2
    interval_cases n <;> decide
  · rw [toUpper_fix c h]
    simp only [isLowerLetter, decide_eq_false_iff_not]
    exact h

theorem toUpper_toUpper (c : Char) : Char.toUpper (Char.toUpper c) = Char.toUpper c := by
  apply toUpper_fix
  have h := isLowerLetter_toUpper c
  simpa [isLowerLetter] using h

theorem pyUpper_idem (s : String) : pyUpper (pyUpper s) = pyUpper s := by
  simp only [pyUpper, List.map_map]
  congr 1
  apply List.map_congr_left
  intro c _
  exact toUpper_toUpper c

theorem pyUpper_ne_empty (s : String) (h : s ≠ "") : pyUpper s ≠ "" := by
  intro hc
  apply h
  have hd : s.data.map Char.toUpper = [] := congrArg String.data hc
  have hnil : s.data = [] := List.map_eq_nil_iff.mp hd
  cases s
  simp_all

theorem noLowerStr_pyUpper (s : String) : noLowerStr (pyUpper s) = true := by
  simp only [noLowerStr, pyUpper, List.all_eq_true]
  intro c hc
  obtain ⟨d, -, rfl⟩ := List.mem_map.mp hc
  simp [isLowerLetter_toUpper]

theorem optStrTruthy_map_pyUpper (v : Option String) :
    optStrTruthy (v.map pyUpper) = optStrTruthy v := by
  cases v with
  | none => rfl
  | some s =>
    simp only [Option.map_some', optStrTruthy, decide_eq_decide]
    constructor
    · intro h hc
      subst hc
      exact h rfl
    · intro h hc
      exact pyUpper_ne_empty s h hc

/-- `Term.save` in closed form: each condition field is independently
upper-cased when truthy. -/
theorem termSave_eq (t : TermRec) : termSave t =
    { t with
      boolean_false_cond :=
        if optStrTruthy t.boolean_false_cond then t.boolean_false_cond.map pyUpper
        else t.boolean_false_cond,
      boolean_true_cond :=
        if optStrTruthy t.boolean_true_cond then t.boolean_true_cond.map pyUpper
        else t.boolean_true_cond } := by
  unfold termSave
  by_cases h1 : optStrTruthy t.boolean_false_cond <;>
    by_cases h2 : optStrTruthy t.boolean_true_cond <;>
    simp [h1, h2]

theorem condNorm_idem (v : Option String) :
    (if optStrTruthy (if optStrTruthy v then v.map pyUpper else v) then
      (if optStrTruthy v then v.map pyUpper else v).map pyUpper
     else (if optStrTruthy v then v.map pyUpper else v)) =
    (if optStrTruthy v then v.map pyUpper else v) := by
  by_cases h : optStrTruthy v
  · simp only [h, if_true, optStrTruthy_map_pyUpper, Option.map_map]
    congr 1
    funext s
    exact pyUpper_idem s
  · simp [h]

/-- **C3.** A filled condition string is stored upper-cased by `Term.save`;
in particular the test row with `"my true"` / `"my false"` persists as
`"MY TRUE"` / `"MY FALSE"`. -/
theorem term_save_uppercases_conditions (t : TermRec) (s r : String) :
    (t.boolean_true_cond = some s → s ≠ "" →
      (termSave t).boolean_true_cond = some (pyUpper s)) ∧
    (t.boolean_false_cond = some r → r ≠ "" →
      (termSave t).boolean_false_cond = some (pyUpper r)) ∧
    termCreate [] termMyVar =
      [{ termMyVar with boolean_false_cond := some "MY FALSE",
                        boolean_true_cond := some "MY TRUE" }] := by
  refine ⟨?_, ?_, ?_⟩
  · intro h hs
    rw [termSave_eq]
    simp [h, optStrTruthy, hs]
  · intro h hr
    rw [termSave_eq]
    simp [h, optStrTruthy, hr]
  · rfl

/-- Witness for C3: the row of the model tests. -/
theorem term_save_uppercases_conditions_witness :
    (termSave termMyVar).boolean_true_cond = some (pyUpper "my true") ∧
    (termSave termMyVar).boolean_false_cond = some (pyUpper "my false") :=
  ⟨(term_save_uppercases_conditions termMyVar "my true" "my false").1 rfl (by decide),
   (term_save_uppercases_conditions termMyVar "my true" "my false").2.1 rfl (by decide)⟩

/-- **C9.** `Term.save` is idempotent on the condition fields: after one save
neither condition field contains an ASCII lower-case letter, saving again
changes nothing, and empty (`''`) or absent (`None`) condition fields are
left untouched rather than converted. -/
theorem term_save_idempotent_conditions (t : TermRec) :
    (∀ s, (termSave t).boolean_true_cond = some s → noLowerStr s = true) ∧
    (∀ s, (termSave t).boolean_false_cond = some s → noLowerStr s = true) ∧
    termSave (termSave t) = termSave t ∧
    (optStrTruthy t.boolean_true_cond = false →
      (termSave t).boolean_true_cond = t.boolean_true_cond) ∧
    (optStrTruthy t.boolean_false_cond = false →
      (termSave t).boolean_false_cond = t.boolean_false_cond) := by
  refine ⟨?_, ?_, ?_, ?_, ?_⟩
  · intro s hs
    rw [termSave_eq] at hs
    simp only at hs
    cases hbt : t.boolean_true_cond with
    | none => rw [hbt] at hs; simp [optStrTruthy] at hs
    | some s0 =>
      rw [hbt] at hs
      by_cases h0 : s0 = ""
      · subst h0
        simp only [optStrTruthy, ne_eq, not_true_eq_false, decide_False,
          Bool.false_eq_true, if_false, Option.some.injEq] at hs
        subst hs
        decide
      · simp only [optStrTruthy, ne_eq, h0, not_false_eq_true, decide_True,
          if_true, Option.map_some', Option.some.injEq] at hs
        subst hs
        exact noLowerStr_pyUpper s0
  · intro s hs
    rw [termSave_eq] at hs
    simp only at hs
    cases hbf : t.boolean_false_cond with
    | none => rw [hbf] at hs; simp [optStrTruthy] at hs
    | some s0 =>
      rw [hbf] at hs
      by_cases h0 : s0 = ""
      · subst h0
        simp only [optStrTruthy, ne_eq, not_true_eq_false, decide_False,
          Bool.false_eq_true, if_false, Option.some.injEq] at hs
        subst hs
        decide
      · simp only [optStrTruthy, ne_eq, h0, not_false_eq_true, decide_True,
          if_true, Option.map_some', Option.some.injEq] at hs
        subst hs
        exact noLowerStr_pyUpper s0
  · rw [termSave_eq t, termSave_eq]
    simp only [condNorm_idem]
  · intro h
    rw [termSave_eq]
    simp [h]
  · intro h
    rw [termSave_eq]
    simp [h]

/-- Witness for C9: the mixed-case row `termMixed`. -/
theorem term_save_idempotent_conditions_witness :
    noLowerStr "A B" = true ∧
    termSave (termSave termMixed) = termSave termMixed ∧
    (termSave termMixed).boolean_false_cond = termMixed.boolean_false_cond :=
  ⟨(term_save_idempotent_conditions termMixed).1 "A B" rfl,
   (term_save_idempotent_conditions termMixed).2.2.1,
   (term_save_idempotent_conditions termMixed).2.2.2.2 rfl⟩

/-- **C6.** A rejected submission changes no state (the store is returned
untouched) and every error is field-scoped: attached to one of the declared
form fields, with one of the fixed validation messages. -/
theorem term_form_rejection_field_scoped_no_side_effects
    (store : TermForm.TermStore) (cu : Option Nat) (post : PyDict)
    (r : TermForm.TermStore × List TermForm.FieldError)
    (hok : TermForm.submit store cu post = .ok r) (hne : r.2 ≠ []) :
    r.1 = store ∧ ∀ e ∈ r.2, e.1 ∈ TermForm.termFormFields ∧
      (e.2 = TermForm.fillMsg ∨ e.2 = TermForm.requiredMsg ∨
        ∃ v, e.2 = TermForm.choiceMsg v) := by
  unfold TermForm.submit at hok
  cases hfc : TermForm.fullClean cu post with
  | error k => rw [hfc] at hok; cases hok
  | ok st =>
    obtain ⟨cd, errs⟩ := st
    rw [hfc] at hok
    by_cases herrs : errs = []
    · simp only [herrs, if_true, Except.ok.injEq] at hok
      subst hok
      exact absurd rfl hne
    · simp only [herrs, if_false, Except.ok.injEq] at hok
      subst hok
      refine ⟨rfl, ?_⟩
      intro e he
      obtain ⟨st', hc, -, herr⟩ := TermForm.fullClean_ok _ _ _ _ hfc
      rw [herr, List.mem_append] at he
      cases he with
      | inl hfe =>
        obtain ⟨h1, h2⟩ := TermForm.cleanFields_errors post e hfe
        refine ⟨?_, ?_⟩
        · simp only [TermForm.termFormFields]
          simp only [List.mem_cons, List.mem_singleton] at h1 ⊢
          tauto
        · rcases h2 with h | h
          · exact Or.inr (Or.inl h)
          · exact Or.inr (Or.inr h)
      | inr hce =>
        obtain ⟨-, dt, tt, eb, ec, -, -, herr2, hbool, hconst⟩ :=
          TermForm.clean_ok _ _ _ hc
        rw [herr2, List.mem_append] at hce
        have hfield : e = ("boolean_false_cond", TermForm.fillMsg) ∨
            e = ("boolean_true_cond", TermForm.fillMsg) ∨
            e = ("value", TermForm.fillMsg) := by
          cases hce with
          | inl hb =>
            rcases hbool with ⟨-, hb0⟩ | ⟨-, bf, bt, -, -, hb0⟩
            · subst hb0; cases hb
            · subst hb0
              rcases TermForm.mem_boolErrs e bf bt hb with h | h
              · exact Or.inl h
              · exact Or.inr (Or.inl h)
          | inr hc2 =>
            rcases hconst with ⟨-, hc0⟩ | ⟨-, v, -, hc0⟩
            · subst hc0; cases hc2
            · subst hc0
              exact Or.inr (Or.inr (TermForm.mem_constErrs e v hc2))
        rcases hfield with h | h | h <;> subst h <;>
          exact ⟨by decide, Or.inl rfl⟩

/-- Witness for C6: a post missing the required `name` field is rejected with
a single error on `name` and the (empty) store is unchanged. -/
theorem term_form_rejection_field_scoped_witness :
    TermForm.submit [] Option.none postNoName =
      .ok ([], [("name", TermForm.requiredMsg)]) ∧
    (([], [("name", TermForm.requiredMsg)]) :
      TermForm.TermStore × List TermForm.FieldError).1 = [] ∧
    "name" ∈ TermForm.termFormFields :=
  ⟨rfl,
   (term_form_rejection_field_scoped_no_side_effects [] Option.none postNoName
      ([], [("name", TermForm.requiredMsg)]) rfl (by decide)).1,
   ((term_form_rejection_field_scoped_no_side_effects [] Option.none postNoName
      ([], [("name", TermForm.requiredMsg)]) rfl (by decide)).2
      ("name", TermForm.requiredMsg) (by simp)).1⟩

/-- **C7.** In a table satisfying the declared uniqueness constraints, two
distinct `Unit` rows differ in `symbol` and in `name`; and inserting a row
that shares a `symbol` or a `name` with an existing row is rejected. -/
theorem unit_unique_symbol_and_name (table : List UnitRec)
    (hwf : unitTableWf table) :
    (∀ u ∈ table, ∀ v ∈ table, u ≠ v → u.symbol ≠ v.symbol ∧ u.name ≠ v.name) ∧
    (∀ u : UnitRec, (∃ v ∈ table, v.symbol = u.symbol ∨ v.name = u.name) →
      unitCreate table u = .error "UNIQUE constraint failed") := by
  constructor
  · intro u hu v hv hne
    have hsymm : Symmetric (fun a b : UnitRec => ¬ unitConflict a b) := by
      intro a b hab hc
      apply hab
      rcases hc with h | h | h
      · exact Or.inl h.symm
      · exact Or.inr (Or.inl h.symm)
      · exact Or.inr (Or.inr h.symm)
    have hnc : ¬ unitConflict u v := hwf.forall hsymm hu hv hne
    exact ⟨fun h => hnc (Or.inl h), fun h => hnc (Or.inr (Or.inl h))⟩
  · intro u ⟨v, hv, hor⟩
    have hany : table.any (fun w => decide (unitConflict w u)) = true := by
      rw [List.any_eq_true]
      refine ⟨v, hv, ?_⟩
      rcases hor with h | h
      · exact decide_eq_true (Or.inl h)
      · exact decide_eq_true (Or.inr (Or.inl h))
    simp [unitCreate, hany]

/-- Witness for C7: a two-row table and a duplicate-name insert. -/
theorem unit_unique_symbol_and_name_witness :
    (microAmp.symbol ≠ milliVolt.symbol ∧ microAmp.name ≠ milliVolt.name) ∧
    unitCreate [microAmp, milliVolt] microAmpDup =
      .error "UNIQUE constraint failed" :=
  ⟨(unit_unique_symbol_and_name [microAmp, milliVolt]
      (by unfold unitTableWf; decide)).1
      microAmp (by simp) milliVolt (by simp) (by decide),
   (unit_unique_symbol_and_name [microAmp, milliVolt]
      (by unfold unitTableWf; decide)).2
      microAmpDup ⟨microAmp, by simp, Or.inr rfl⟩⟩

/-- **C8.** A `Unit` created with the non-ASCII symbol `µA` persists
unchanged, and both the stored row and its string representation read back
exactly `µA`. -/
theorem unit_microamp_roundtrip :
    unitCreate [] microAmp = .ok [microAmp] ∧
    microAmp.symbol = "µA" ∧ UnitRec.str microAmp = "µA" :=
  ⟨rfl, rfl, rfl⟩

/-- **C10 (code behaviour at the failing input).** With `d_type = 99` (not a
declared choice), field cleaning records a field-scoped choice error and drops
`d_type` from `cleaned_data`; `TermForm.clean` then subscripts
`cleaned_data['d_type']`, which raises `KeyError` instead of returning a
rejection. -/
theorem term_form_clean_keyerror_on_invalid_choice :
    (TermForm.cleanFields postBadDType).2 =
      [("d_type", TermForm.choiceMsg (PyVal.int 99))] ∧
    List.lookup "d_type" (TermForm.cleanFields postBadDType).1 = Option.none ∧
    TermForm.fullClean (some 1) postBadDType = .error "d_type" :=
  ⟨rfl, rfl, rfl⟩
